import Mathlib

/-!
Verification of the numeric valuation engine of the mna-automation
repository: a shallow embedding of the DCF valuator, the LBO modeler,
the IPO valuator, the two sensitivity sweeps and the target selector,
with proofs of the specified properties.

Python floats are modelled as exact rationals (ℚ); a Python function
that can raise (and whose caller catches the exception and returns an
error marker) is modelled as an `Option`-valued function returning
`none` exactly when the source raises.
-/

namespace MnA

/-! ## DCF valuator (agents/valuation_agent.py, calculate_dcf)

One entry of `financials["yearly_metrics"]`: the fields `fcf` and
`ebitda` read with `.get`, so either may be absent (`none`). -/

structure YearMetrics where
  fcf : Option ℚ
  ebitda : Option ℚ
deriving DecidableEq

/-- The reported-FCF pass: `if fcf and fcf != 0: fcf_data.append(float(fcf))`.
Python truthiness of a number is "non-zero", so a year contributes
exactly when `fcf` is present and non-zero. -/
def reportedFcfs (metrics : List YearMetrics) : List ℚ :=
  metrics.filterMap fun y => y.fcf.bind fun v => if v = 0 then none else some v

/-- The fallback pass: `estimated_fcf = float(ebitda) * 0.7` for every year
whose `ebitda` is present and non-zero. -/
def estimatedFcfs (metrics : List YearMetrics) : List ℚ :=
  metrics.filterMap fun y => y.ebitda.bind fun v =>
    if v = 0 then none else some (v * (7 / 10))

/-- `fcf_data` as `calculate_dcf` builds it: the reported values, and the
EBITDA-derived estimates only when no year had a reported non-zero FCF
(`if not fcf_data:` guards the whole fallback loop). -/
def fcfData (metrics : List YearMetrics) : List ℚ :=
  let reported := reportedFcfs metrics
  if reported.isEmpty then estimatedFcfs metrics else reported

/-- `for i, fcf in enumerate(projected_fcfs)` with an index offset:
structural recursion so that concrete runs reduce. -/
def mapIdxFrom (f : ℕ → ℚ → ℚ) (i : ℕ) : List ℚ → List ℚ
  | [] => []
  | x :: xs => f i x :: mapIdxFrom f (i + 1) xs

structure DCFResult where
  enterprise_value : ℚ
  present_value_fcf : ℚ
  present_value_terminal : ℚ
  projected_fcfs : List ℚ
  historical_average_fcf : ℚ
deriving DecidableEq

/-- `projection_years = 5` in the source. -/
def projectionYears : ℕ := 5

/-- `calculate_dcf(financials, wacc, growth_rate)`.  Returns `none` when the
source returns an `{"error": ...}` dict: empty metrics, no usable FCF data,
or a `ZeroDivisionError` caught by the enclosing `try` (raised when
`wacc == growth_rate` in the terminal-value division, or when
`1 + wacc == 0` in the present-value divisions). -/
def calculate_dcf (metrics : List YearMetrics) (wacc growth_rate : ℚ) :
    Option DCFResult :=
  if metrics.isEmpty then none else
  let fcf_data := fcfData metrics
  if fcf_data.isEmpty then none else
  if wacc = growth_rate then none else
  if 1 + wacc = 0 then none else
  let base_fcf := fcf_data.sum / fcf_data.length
  let projected_fcfs :=
    (List.range projectionYears).map fun i => base_fcf * (1 + growth_rate) ^ (i + 1)
  let terminal_value :=
    (projected_fcfs.getLastD 0 * (1 + growth_rate)) / (wacc - growth_rate)
  let pv_fcfs := mapIdxFrom (fun i fcf => fcf / (1 + wacc) ^ (i + 1)) 0 projected_fcfs
  let pv_terminal := terminal_value / (1 + wacc) ^ projectionYears
  some { enterprise_value := pv_fcfs.sum + pv_terminal
         present_value_fcf := pv_fcfs.sum
         present_value_terminal := pv_terminal
         projected_fcfs := projected_fcfs
         historical_average_fcf := base_fcf }

/-- Shared extraction: a successful `calculate_dcf` reports the mean of
`fcf_data` as the historical average FCF. -/
theorem calculate_dcf_historical_average (metrics : List YearMetrics)
    (wacc growth_rate : ℚ) (r : DCFResult)
    (h : calculate_dcf metrics wacc growth_rate = some r) :
    r.historical_average_fcf = (fcfData metrics).sum / (fcfData metrics).length := by
  simp only [calculate_dcf] at h
  split at h
  · exact absurd h (by simp)
  split at h
  · exact absurd h (by simp)
  split at h
  · exact absurd h (by simp)
  split at h
  · exact absurd h (by simp)
  simp only [Option.some.injEq] at h
  subst h
  rfl

/-! ### C1: the DCF identity -/

/-- **C1.** Whenever `calculate_dcf` succeeds with parameters `wacc` and
`growth_rate` (horizon 5), `historical_average_fcf` is the arithmetic mean
of the usable FCF values, the `i`-th projected FCF (`i = 1..5`) is
`base_fcf * (1+growth_rate)^i`, the present value of the terminal value is
`projected_fcfs[-1] * (1+growth_rate) / (wacc-growth_rate)` discounted by
`(1+wacc)^5`, and the returned `enterprise_value` equals
`present_value_fcf + present_value_terminal` — exactly, hence in particular
within the claimed `1e-6` relative tolerance. -/
theorem dcf_identity (metrics : List YearMetrics) (wacc growth_rate : ℚ)
    (r : DCFResult) (h : calculate_dcf metrics wacc growth_rate = some r) :
    r.historical_average_fcf = (fcfData metrics).sum / (fcfData metrics).length
    ∧ r.projected_fcfs.length = 5
    ∧ (∀ i, i < 5 →
        r.projected_fcfs.getD i 0
          = r.historical_average_fcf * (1 + growth_rate) ^ (i + 1))
    ∧ r.present_value_terminal
        = (r.projected_fcfs.getLastD 0 * (1 + growth_rate) / (wacc - growth_rate))
            / (1 + wacc) ^ 5
    ∧ r.enterprise_value = r.present_value_fcf + r.present_value_terminal
    ∧ |r.enterprise_value - (r.present_value_fcf + r.present_value_terminal)|
        ≤ (1 / 1000000) * |r.enterprise_value| := by
  simp only [calculate_dcf] at h
  split at h
  · exact absurd h (by simp)
  split at h
  · exact absurd h (by simp)
  split at h
  · exact absurd h (by simp)
  split at h
  · exact absurd h (by simp)
  simp only [Option.some.injEq] at h
  subst h
  refine ⟨rfl, by simp [projectionYears], ?_, ?_, rfl, ?_⟩
  · intro i hi
    simp [projectionYears, List.getD, List.getElem?_map, List.getElem?_range, hi]
  · rfl
  · simp [sub_self, abs_zero]

def dcfExMetrics : List YearMetrics := [⟨some 1, none⟩]

def dcfExResult : DCFResult := ⟨1, 31 / 32, 1 / 32, [1, 1, 1, 1, 1], 1⟩

/-- Witness for `dcf_identity`: the single-year history `fcf = 1` with
`wacc = 1`, `growth_rate = 0` succeeds, and the theorem's conclusion holds
at the computed result. -/
theorem dcf_identity_witness :
    calculate_dcf dcfExMetrics 1 0 = some dcfExResult
    ∧ (dcfExResult.historical_average_fcf
          = (fcfData dcfExMetrics).sum / (fcfData dcfExMetrics).length
        ∧ dcfExResult.projected_fcfs.length = 5
        ∧ (∀ i, i < 5 → dcfExResult.projected_fcfs.getD i 0
              = dcfExResult.historical_average_fcf * (1 + 0) ^ (i + 1))
        ∧ dcfExResult.present_value_terminal
            = (dcfExResult.projected_fcfs.getLastD 0 * (1 + 0) / (1 - 0))
                / (1 + 1) ^ 5
        ∧ dcfExResult.enterprise_value
            = dcfExResult.present_value_fcf + dcfExResult.present_value_terminal
        ∧ |dcfExResult.enterprise_value - (dcfExResult.present_value_fcf
              + dcfExResult.present_value_terminal)|
            ≤ (1 / 1000000) * |dcfExResult.enterprise_value|) :=
  ⟨by
    simp [dcfExMetrics, dcfExResult, calculate_dcf, fcfData, reportedFcfs,
      projectionYears, mapIdxFrom, List.range_succ]
    norm_num,
   dcf_identity dcfExMetrics 1 0 dcfExResult (by
    simp [dcfExMetrics, dcfExResult, calculate_dcf, fcfData, reportedFcfs,
      projectionYears, mapIdxFrom, List.range_succ]
    norm_num)⟩

/-! ### C2: there is no `wacc <= growth_rate` guard in the code -/

/-- **C2 (divergence).** The source has no `CalculationError(INVALID_SPREAD)`
guard.  With `wacc = growth_rate` the terminal-value division raises
`ZeroDivisionError`, caught and turned into a generic error marker (`none`
here), but with `wacc < growth_rate` (`wacc = 0`, `growth_rate = 1/2`,
one year of `fcf = 1`) the code silently returns the numeric — and
negative — enterprise value `-3` instead of failing. -/
theorem dcf_no_invalid_spread_guard :
    calculate_dcf [⟨some 1, none⟩] (1 / 10) (1 / 10) = none
    ∧ (calculate_dcf [⟨some 1, none⟩] 0 (1 / 2)).map DCFResult.enterprise_value
        = some (-3)
    ∧ (-3 : ℚ) < 0 := by
  refine ⟨by norm_num [calculate_dcf, fcfData, reportedFcfs], ?_, by norm_num⟩
  simp [calculate_dcf, fcfData, reportedFcfs, projectionYears, mapIdxFrom,
    List.range_succ]
  norm_num

/-! ### C7: the EBITDA substitution is a global fallback, not per-year -/

/-- **C7 (counterexample).** History: year 1 reports `fcf = 14`
(`ebitda = 20`), year 2 has `fcf = 0` with `ebitda = 30`.  The claim says
year 2 contributes the usable value `ebitda * 0.7 = 21`, so the base FCF
would be `(14 + 21) / 2 = 35/2`; the code drops year 2 entirely (the
fallback loop runs only when *no* year has a reported non-zero FCF) and
returns base FCF `14`. -/
theorem dcf_fcf_substitution_not_per_year :
    (calculate_dcf [⟨some 14, some 20⟩, ⟨some 0, some 30⟩] 1 0).map
        DCFResult.historical_average_fcf = some 14
    ∧ (14 : ℚ) ≠ (14 + 30 * (7 / 10)) / 2 := by
  constructor
  · simp [calculate_dcf, fcfData, reportedFcfs, projectionYears, mapIdxFrom,
      List.range_succ]
  · norm_num

/-- **C7 (amended).** When `calculate_dcf` succeeds, the base FCF is the
mean of `fcf_data`, where `fcf_data` is the list of reported non-zero FCFs
if at least one year has one, and otherwise (and only then) the list of
`ebitda * 0.7` estimates over all years with non-zero EBITDA. -/
theorem dcf_fcf_substitution_global (metrics : List YearMetrics)
    (wacc growth_rate : ℚ) (r : DCFResult)
    (h : calculate_dcf metrics wacc growth_rate = some r) :
    r.historical_average_fcf = (fcfData metrics).sum / (fcfData metrics).length
    ∧ (reportedFcfs metrics ≠ [] → fcfData metrics = reportedFcfs metrics)
    ∧ (reportedFcfs metrics = [] → fcfData metrics = estimatedFcfs metrics) := by
  refine ⟨calculate_dcf_historical_average metrics wacc growth_rate r h, ?_, ?_⟩
  · intro hne
    simp [fcfData, List.isEmpty_iff, hne]
  · intro he
    simp [fcfData, List.isEmpty_iff, he]

def fcfSubExMetrics : List YearMetrics := [⟨some 14, some 20⟩, ⟨some 0, some 30⟩]

/-- Witness for `dcf_fcf_substitution_global` at the two-year history of the
counterexample (`wacc = 1`, `growth_rate = 0`). -/
theorem dcf_fcf_substitution_global_witness :
    (14 : ℚ) = (fcfData fcfSubExMetrics).sum / (fcfData fcfSubExMetrics).length
    ∧ (reportedFcfs fcfSubExMetrics ≠ [] →
        fcfData fcfSubExMetrics = reportedFcfs fcfSubExMetrics)
    ∧ (reportedFcfs fcfSubExMetrics = [] →
        fcfData fcfSubExMetrics = estimatedFcfs fcfSubExMetrics) :=
  dcf_fcf_substitution_global fcfSubExMetrics 1 0
    ⟨14, 217 / 16, 7 / 16, [14, 14, 14, 14, 14], 14⟩ (by
      simp [fcfSubExMetrics, calculate_dcf, fcfData, reportedFcfs, projectionYears,
        mapIdxFrom, List.range_succ]
      norm_num)

/-! ## LBO modeler (finmodels_tools.py, calculate_lbo_metrics)

The data-fetching layer (`fmp.get_complete_lbo_data`) is an external
collaborator; the embedding takes the three scalars the calculation reads
from it (`enterprise_value`, latest `ebitda`, latest `free_cash_flow`).
The IRR is produced by the external `numpy_financial.irr` root-finder and
is not part of any claim, so the embedded result omits it. -/

/-- One iteration of the projection loop, recorded with the debt balance
before the repayment so the cash-sweep cap can be stated. -/
structure LBOYear where
  debt_before : ℚ
  fcf_growth : ℚ
  debt_repayment : ℚ
  remaining_debt : ℚ
  free_cash_after_debt : ℚ
deriving DecidableEq

/-- `for year in range(holding_period)` of `calculate_lbo_metrics`, carrying
the running `remaining_debt`; `year` is the absolute loop index (the FCF is
grown as `fcf * (1 + fcf_growth_rate) ** year`). -/
def lboYearsFrom (fcf fcf_growth_rate debt_repayment_pct interest_rate : ℚ) :
    ℕ → ℕ → ℚ → List LBOYear
  | _, 0, _ => []
  | year, Nat.succ k, rd =>
    let fcf_growth := fcf * (1 + fcf_growth_rate) ^ year
    let debt_repayment := min (fcf_growth * debt_repayment_pct) rd
    let rd2 := rd - debt_repayment
    let interest_expense := rd2 * interest_rate
    ⟨rd, fcf_growth, debt_repayment, rd2, fcf_growth - interest_expense - debt_repayment⟩
      :: lboYearsFrom fcf fcf_growth_rate debt_repayment_pct interest_rate (year + 1) k rd2

/-- The debt balance left after the loop: the last year's balance, or the
initial debt when `holding_period = 0`. -/
def lboFinalDebt (debt : ℚ) (years : List LBOYear) : ℚ :=
  (years.getLast?).elim debt LBOYear.remaining_debt

structure LBOPurchasePrice where
  enterprise_value : ℚ
  equity_contribution : ℚ
  debt_financing : ℚ
  debt_ratio : ℚ
deriving DecidableEq

/-- The result dict of `calculate_lbo_metrics`.  `moic` is
`exit_equity / equity` when `equity != 0` and the string
`"N/A (division by zero)"` otherwise, modelled as `Option ℚ`. -/
structure LBOResult where
  purchase_price : LBOPurchasePrice
  years : List LBOYear
  exit_value : ℚ
  remaining_debt : ℚ
  exit_equity : ℚ
  moic : Option ℚ
deriving DecidableEq

def calculate_lbo_metrics (ev ebitda fcf : ℚ) (holding_period : ℕ)
    (debt_ratio interest_rate fcf_growth_rate debt_repayment_pct
      exit_multiple exit_ebitda_growth : ℚ) : LBOResult :=
  let debt := ev * debt_ratio
  let equity := ev - debt
  let years := lboYearsFrom fcf fcf_growth_rate debt_repayment_pct interest_rate
    0 holding_period debt
  let remaining_debt := lboFinalDebt debt years
  let exit_ebitda := ebitda * (1 + exit_ebitda_growth) ^ holding_period
  let exit_value := exit_ebitda * exit_multiple
  let exit_equity := exit_value - remaining_debt
  { purchase_price := ⟨ev, equity, debt, debt_ratio⟩
    years := years
    exit_value := exit_value
    remaining_debt := remaining_debt
    exit_equity := exit_equity
    moic := if equity = 0 then none else some (exit_equity / equity) }

/-! ### C3: debt never goes negative and the cash sweep is capped -/

/-- Invariant of the projection loop: started from a non-negative balance,
every simulated year keeps `remaining_debt >= 0`, and the repayment is the
capped cash sweep, never exceeding the balance it is taken from. -/
theorem lboYearsFrom_invariant (fcf g pct rate : ℚ) :
    ∀ (k year : ℕ) (rd : ℚ), 0 ≤ rd →
      ∀ y ∈ lboYearsFrom fcf g pct rate year k rd,
        0 ≤ y.remaining_debt
        ∧ y.debt_repayment = min (y.fcf_growth * pct) y.debt_before
        ∧ y.debt_repayment ≤ y.debt_before := by
  intro k
  induction k with
  | zero => intro year rd _ y hy; simp [lboYearsFrom] at hy
  | succ k ih =>
    intro year rd hrd y hy
    simp only [lboYearsFrom, List.mem_cons] at hy
    rcases hy with hy | hy
    · subst hy
      refine ⟨?_, rfl, min_le_right _ _⟩
      simp only [sub_nonneg]
      exact min_le_right _ _
    · exact ih (year + 1) _ (by simp only [sub_nonneg]; exact min_le_right _ _) y hy

/-- **C3.** For `enterprise_value >= 0` and `0 <= debt_ratio <= 1`, every
projection year of the LBO model has a non-negative remaining debt balance,
and its cash-sweep repayment equals
`min(grown_fcf * debt_repayment_pct, remaining_debt_before)`, hence never
exceeds the debt outstanding before the repayment. -/
theorem lbo_debt_nonneg (ev ebitda fcf : ℚ) (holding_period : ℕ)
    (debt_ratio interest_rate fcf_growth_rate debt_repayment_pct
      exit_multiple exit_ebitda_growth : ℚ)
    (hev : 0 ≤ ev) (hdr0 : 0 ≤ debt_ratio) (hdr1 : debt_ratio ≤ 1) :
    ∀ y ∈ (calculate_lbo_metrics ev ebitda fcf holding_period debt_ratio
        interest_rate fcf_growth_rate debt_repayment_pct exit_multiple
        exit_ebitda_growth).years,
      0 ≤ y.remaining_debt
      ∧ y.debt_repayment = min (y.fcf_growth * debt_repayment_pct) y.debt_before
      ∧ y.debt_repayment ≤ y.debt_before := by
  intro y hy
  exact lboYearsFrom_invariant fcf fcf_growth_rate debt_repayment_pct interest_rate
    holding_period 0 (ev * debt_ratio) (mul_nonneg hev hdr0) y hy

/-- Witness for `lbo_debt_nonneg`: `ev = 1000`, `debt_ratio = 0.7`, five
years at `fcf = 50`, 10% growth, 30% sweep, 8% interest. -/
theorem lbo_debt_nonneg_witness :
    (0 : ℚ) ≤ 1000 ∧
    ∀ y ∈ (calculate_lbo_metrics 1000 200 50 5 (7 / 10) (2 / 25) (1 / 10)
        (3 / 10) 10 (2 / 25)).years,
      0 ≤ y.remaining_debt
      ∧ y.debt_repayment = min (y.fcf_growth * (3 / 10)) y.debt_before
      ∧ y.debt_repayment ≤ y.debt_before :=
  ⟨by norm_num,
   lbo_debt_nonneg 1000 200 50 5 (7 / 10) (2 / 25) (1 / 10) (3 / 10) 10 (2 / 25)
    (by norm_num) (by norm_num) (by norm_num)⟩

/-! ### C4: MOIC consistency -/

/-- **C4.** Whenever the equity contribution `ev - ev * debt_ratio` is
non-zero, the returned MOIC is `exit_equity / equity_contribution`, where
`equity_contribution = ev - ev * debt_ratio` and
`debt_financing = ev * debt_ratio`; in particular `ev = 1000` with
`debt_ratio = 0.7` gives an equity contribution of `300` and debt financing
of `700`. -/
theorem lbo_moic_consistency (ev ebitda fcf : ℚ) (holding_period : ℕ)
    (debt_ratio interest_rate fcf_growth_rate debt_repayment_pct
      exit_multiple exit_ebitda_growth : ℚ)
    (h : ev - ev * debt_ratio ≠ 0) :
    (calculate_lbo_metrics ev ebitda fcf holding_period debt_ratio interest_rate
        fcf_growth_rate debt_repayment_pct exit_multiple exit_ebitda_growth).moic
      = some ((calculate_lbo_metrics ev ebitda fcf holding_period debt_ratio
          interest_rate fcf_growth_rate debt_repayment_pct exit_multiple
          exit_ebitda_growth).exit_equity
        / (calculate_lbo_metrics ev ebitda fcf holding_period debt_ratio
          interest_rate fcf_growth_rate debt_repayment_pct exit_multiple
          exit_ebitda_growth).purchase_price.equity_contribution)
    ∧ (calculate_lbo_metrics ev ebitda fcf holding_period debt_ratio interest_rate
        fcf_growth_rate debt_repayment_pct exit_multiple
        exit_ebitda_growth).purchase_price.equity_contribution
      = ev - ev * debt_ratio
    ∧ (calculate_lbo_metrics ev ebitda fcf holding_period debt_ratio interest_rate
        fcf_growth_rate debt_repayment_pct exit_multiple
        exit_ebitda_growth).purchase_price.debt_financing
      = ev * debt_ratio
    ∧ (calculate_lbo_metrics 1000 ebitda fcf holding_period (7 / 10) interest_rate
        fcf_growth_rate debt_repayment_pct exit_multiple
        exit_ebitda_growth).purchase_price.equity_contribution = 300
    ∧ (calculate_lbo_metrics 1000 ebitda fcf holding_period (7 / 10) interest_rate
        fcf_growth_rate debt_repayment_pct exit_multiple
        exit_ebitda_growth).purchase_price.debt_financing = 700 := by
  refine ⟨?_, rfl, rfl, by norm_num [calculate_lbo_metrics], by norm_num [calculate_lbo_metrics]⟩
  simp only [calculate_lbo_metrics, if_neg h]

/-- Witness for `lbo_moic_consistency` at `ev = 1000`, `debt_ratio = 0.7`. -/
theorem lbo_moic_consistency_witness :
    (1000 : ℚ) - 1000 * (7 / 10) ≠ 0
    ∧ (calculate_lbo_metrics 1000 200 50 5 (7 / 10) (2 / 25) (1 / 10) (3 / 10)
        10 (2 / 25)).moic
      = some ((calculate_lbo_metrics 1000 200 50 5 (7 / 10) (2 / 25) (1 / 10)
          (3 / 10) 10 (2 / 25)).exit_equity
        / (calculate_lbo_metrics 1000 200 50 5 (7 / 10) (2 / 25) (1 / 10)
          (3 / 10) 10 (2 / 25)).purchase_price.equity_contribution) :=
  ⟨by norm_num,
   (lbo_moic_consistency 1000 200 50 5 (7 / 10) (2 / 25) (1 / 10) (3 / 10) 10
      (2 / 25) (by norm_num)).1⟩

/-! ## LBO sensitivity sweep (finmodels_tools.py, perform_lbo_sensitivity_analysis)

The triple loop over `fcf_growth_rates × exit_multiples × interest_rates`
sits inside a single `try/except` that returns `{}` on any exception, so
the whole sweep is `Option`-valued: `none` when any cell's body raises.
`irrFn` abstracts the external `numpy_financial.irr` solver (modelled
total; the caught failure the model tracks is the `ZeroDivisionError` in
the MOIC division when the equity contribution is zero). -/

structure LBOCell where
  fcf_growth_rate : ℚ
  exit_multiple : ℚ
  interest_rate : ℚ
  irr : ℚ
  moic : ℚ
deriving DecidableEq

/-- The sweep's projection loop: as `lboYearsFrom`, but
`free_cash_after_debt` is clamped below at `-available_cash`. -/
def lboSweepYearsFrom (fcf g pct rate cash : ℚ) : ℕ → ℕ → ℚ → List LBOYear
  | _, 0, _ => []
  | year, Nat.succ k, rd =>
    let fcf_growth := fcf * (1 + g) ^ year
    let debt_repayment := min (fcf_growth * pct) rd
    let rd2 := rd - debt_repayment
    let interest_expense := rd2 * rate
    let free_cash_after_debt :=
      max (fcf_growth - interest_expense - debt_repayment) (-cash)
    ⟨rd, fcf_growth, debt_repayment, rd2, free_cash_after_debt⟩
      :: lboSweepYearsFrom fcf g pct rate cash (year + 1) k rd2

/-- The body of the innermost loop for one `(growth_rate, multiple, rate)`
combination. -/
def lboCell (irrFn : List ℚ → ℚ) (ev ebitda fcf cash : ℚ) (hp : ℕ)
    (dr pct eg : ℚ) (g m r : ℚ) : Option LBOCell :=
  let debt := ev * dr
  let equity := ev - debt
  let years := lboSweepYearsFrom fcf g pct r cash 0 hp debt
  let remaining_debt := lboFinalDebt debt years
  let exit_ebitda := ebitda * (1 + eg) ^ hp
  let exit_value := exit_ebitda * m
  let exit_equity := exit_value - remaining_debt
  if equity = 0 then none
  else some ⟨g, m, r,
    irrFn ((-equity) :: years.map LBOYear.free_cash_after_debt ++ [exit_equity]),
    exit_equity / equity⟩

/-- The `results` lists are appended to cell by cell; the first raising cell
aborts the whole loop (the `except` clause returns `{}`). -/
def collectCells {α : Type} : List (Option α) → Option (List α)
  | [] => some []
  | none :: _ => none
  | some c :: rest => (collectCells rest).map (c :: ·)

def perform_lbo_sensitivity_analysis (irrFn : List ℚ → ℚ)
    (ev ebitda fcf cash : ℚ) (gs ms rs : List ℚ) (hp : ℕ) (dr pct eg : ℚ) :
    Option (List LBOCell) :=
  collectCells (gs.flatMap fun g => ms.flatMap fun m => rs.map fun r =>
    lboCell irrFn ev ebitda fcf cash hp dr pct eg g m r)

/-! ## IPO sensitivity sweep (finmodels_tools.py, perform_ipo_sensitivity_analysis) -/

/-- Sector P/E resolution of the IPO sweep:
`if sector_pe is None: sector_pe = pe_ratio if pe_ratio else 15`
(note: this variant keeps a present-but-zero sector P/E). -/
def ipoSweepSectorPe (sector_pe pe_ratio : Option ℚ) : ℚ :=
  match sector_pe with
  | some s => s
  | none =>
    match pe_ratio with
    | some p => if p = 0 then 15 else p
    | none => 15

/-- The growth-weighted blend of the two enterprise-value estimates
(`if ev_revenue and ev_ebitda: ... elif ev_revenue: ... else: ...`). -/
def ipoBlendEnterpriseValue (ev_revenue ev_ebitda revenue_growth : ℚ) : ℚ :=
  if ev_revenue ≠ 0 ∧ ev_ebitda ≠ 0 then
    if revenue_growth > 3 / 10 then
      ev_revenue * (7 / 10) + ev_ebitda * (3 / 10)
    else
      ev_revenue * (3 / 10) + ev_ebitda * (7 / 10)
  else if ev_revenue ≠ 0 then ev_revenue
  else ev_ebitda

structure IPOCell where
  target_float : ℚ
  price_range_buffer : ℚ
  equity_value : ℚ
  price_low : ℚ
  price_base : ℚ
  price_high : ℚ
  float_shares : ℚ
deriving DecidableEq

/-- The body of the inner loop for one `(target_float, buffer)` pair:
`none` models the `ZeroDivisionError` when `market_cap` or the derived
`shares_outstanding` is zero. -/
def ipoCellCalc (equity_value market_cap tf buf : ℚ) : Option IPOCell :=
  if market_cap = 0 then none else
  let shares_outstanding := equity_value / market_cap
  if shares_outstanding = 0 then none else
  let base_price := equity_value / shares_outstanding
  some ⟨tf, buf, equity_value, base_price * (1 - buf), base_price,
    base_price * (1 + buf), shares_outstanding * tf⟩

def perform_ipo_sensitivity_analysis (revenue ebitda : ℚ)
    (pe_ratio sector_pe : Option ℚ) (revenue_growth debt market_cap : ℚ)
    (tfs bufs : List ℚ) : Option (List IPOCell) :=
  let spe := ipoSweepSectorPe sector_pe pe_ratio
  let ev_revenue := if revenue = 0 then 0 else revenue * spe
  let ev_ebitda := if ebitda = 0 then 0 else ebitda * 10
  let enterprise_value := ipoBlendEnterpriseValue ev_revenue ev_ebitda revenue_growth
  collectCells (tfs.flatMap fun tf => bufs.map fun b =>
    ipoCellCalc (enterprise_value - debt) market_cap tf b)

/-! ### C5: a failing cell aborts the entire sweep -/

/-- **C5 (divergence).** The whole triple loop sits in one `try/except`
returning `{}`: when a combination's body raises (here the
`ZeroDivisionError` computing MOIC, forced by `ev = 0` so that the equity
contribution is zero), the sweep returns the empty marker instead of a grid
with per-cell error markers — no other combination is reported, although
the two supplied growth rates would have given two cells. -/
theorem lbo_sweep_aborts_on_cell_failure :
    perform_lbo_sensitivity_analysis (fun _ => 0) 0 1 1 1
        [1 / 20, 2 / 25] [8] [3 / 50] 1 (7 / 10) (3 / 10) (2 / 25) = none
    ∧ ([(1 : ℚ) / 20, 2 / 25].length * ([(8 : ℚ)].length * [(3 : ℚ) / 50].length))
        = 2 := by
  constructor
  · norm_num [perform_lbo_sensitivity_analysis, lboCell, collectCells]
  · norm_num

/-! ### C8: sweep completeness, uniqueness and ordering -/

theorem collectCells_eq_map_some {α : Type} :
    ∀ (xs : List (Option α)) (ys : List α),
      collectCells xs = some ys → xs = ys.map some := by
  intro xs
  induction xs with
  | nil =>
    intro ys h
    simp only [collectCells, Option.some.injEq] at h
    subst h; rfl
  | cons x rest ih =>
    intro ys h
    match x with
    | none => simp [collectCells] at h
    | some c =>
      simp only [collectCells, Option.map_eq_some'] at h
      obtain ⟨zs, hz, hy⟩ := h
      subst hy
      simp [ih zs hz]

/-- If mapping a partial cell function over the parameter list reproduces the
collected cells, and the cell function stores its parameters, then reading
the parameters back off the cells reproduces the parameter list. -/
theorem cells_params_roundtrip {α β : Type} (f : α → Option β) (g : β → α)
    (hfg : ∀ a b, f a = some b → g b = a) :
    ∀ (ps : List α) (cs : List β), ps.map f = cs.map some → cs.map g = ps := by
  intro ps
  induction ps with
  | nil =>
    intro cs h
    cases cs with
    | nil => rfl
    | cons c ct => simp at h
  | cons p pt ih =>
    intro cs h
    cases cs with
    | nil => simp at h
    | cons c ct =>
      simp only [List.map_cons, List.cons.injEq] at h
      simp [List.map_cons, hfg p c h.1, ih ct h.2]

def lboCellParams (c : LBOCell) : ℚ × ℚ × ℚ :=
  (c.fcf_growth_rate, c.exit_multiple, c.interest_rate)

def ipoCellParams (c : IPOCell) : ℚ × ℚ :=
  (c.target_float, c.price_range_buffer)

theorem lboCell_params (irrFn : List ℚ → ℚ) (ev ebitda fcf cash : ℚ) (hp : ℕ)
    (dr pct eg : ℚ) (t : ℚ × ℚ × ℚ) (c : LBOCell)
    (h : lboCell irrFn ev ebitda fcf cash hp dr pct eg t.1 t.2.1 t.2.2 = some c) :
    lboCellParams c = t := by
  simp only [lboCell] at h
  split at h
  · exact absurd h (by simp)
  · simp only [Option.some.injEq] at h
    subst h
    rfl

theorem ipoCellCalc_params (equity_value market_cap : ℚ) (t : ℚ × ℚ)
    (c : IPOCell) (h : ipoCellCalc equity_value market_cap t.1 t.2 = some c) :
    ipoCellParams c = t := by
  simp only [ipoCellCalc] at h
  split at h
  · exact absurd h (by simp)
  split at h
  · exact absurd h (by simp)
  simp only [Option.some.injEq] at h
  subst h
  rfl

/-- The nested loops enumerate exactly the cartesian product, outermost
range varying slowest. -/
theorem lbo_sweep_cells_eq (irrFn : List ℚ → ℚ) (ev ebitda fcf cash : ℚ)
    (hp : ℕ) (dr pct eg : ℚ) (gs ms rs : List ℚ) :
    (gs.flatMap fun g => ms.flatMap fun m => rs.map fun r =>
        lboCell irrFn ev ebitda fcf cash hp dr pct eg g m r)
      = (gs ×ˢ (ms ×ˢ rs)).map fun t =>
          lboCell irrFn ev ebitda fcf cash hp dr pct eg t.1 t.2.1 t.2.2 := by
  simp [SProd.sprod, List.product, List.map_flatMap, List.map_map,
    Function.comp_def]

theorem ipo_sweep_cells_eq (equity_value market_cap : ℚ) (tfs bufs : List ℚ) :
    (tfs.flatMap fun tf => bufs.map fun b =>
        ipoCellCalc equity_value market_cap tf b)
      = (tfs ×ˢ bufs).map fun t =>
          ipoCellCalc equity_value market_cap t.1 t.2 := by
  simp [SProd.sprod, List.product, List.map_flatMap, List.map_map,
    Function.comp_def]

/-- **C8.** For every successful sweep: the number of cells is the product
of the cardinalities of the supplied parameter ranges, the cells read back
in exactly cartesian-product order (outermost range varying slowest), and
— for duplicate-free ranges — every cell's parameter tuple is unique.
Stated for both the LBO sweep (three ranges) and the IPO sweep (two
ranges). -/
theorem sweep_completeness (irrFn : List ℚ → ℚ) (ev ebitda fcf cash : ℚ)
    (hp : ℕ) (dr pct eg : ℚ) (gs ms rs : List ℚ) (cs : List LBOCell)
    (hl : perform_lbo_sensitivity_analysis irrFn ev ebitda fcf cash gs ms rs
      hp dr pct eg = some cs)
    (revenue ebitda2 : ℚ) (pe_ratio sector_pe : Option ℚ)
    (revenue_growth debt market_cap : ℚ) (tfs bufs : List ℚ)
    (ds : List IPOCell)
    (hi : perform_ipo_sensitivity_analysis revenue ebitda2 pe_ratio sector_pe
      revenue_growth debt market_cap tfs bufs = some ds) :
    cs.length = gs.length * (ms.length * rs.length)
    ∧ cs.map lboCellParams = gs ×ˢ (ms ×ˢ rs)
    ∧ (gs.Nodup → ms.Nodup → rs.Nodup → (cs.map lboCellParams).Nodup)
    ∧ ds.length = tfs.length * bufs.length
    ∧ ds.map ipoCellParams = tfs ×ˢ bufs
    ∧ (tfs.Nodup → bufs.Nodup → (ds.map ipoCellParams).Nodup) := by
  simp only [perform_lbo_sensitivity_analysis] at hl
  simp only [perform_ipo_sensitivity_analysis] at hi
  have hl' := collectCells_eq_map_some _ cs hl
  have hi' := collectCells_eq_map_some _ ds hi
  rw [lbo_sweep_cells_eq] at hl'
  rw [ipo_sweep_cells_eq] at hi'
  have hmapl : cs.map lboCellParams = gs ×ˢ (ms ×ˢ rs) :=
    cells_params_roundtrip _ _
      (fun t c h => lboCell_params irrFn ev ebitda fcf cash hp dr pct eg t c h)
      _ _ hl'
  have hmapi : ds.map ipoCellParams = tfs ×ˢ bufs :=
    cells_params_roundtrip _ _
      (fun t c h => ipoCellCalc_params _ market_cap t c h) _ _ hi'
  refine ⟨?_, hmapl, ?_, ?_, hmapi, ?_⟩
  · have := congrArg List.length hmapl
    simpa [List.length_product] using this
  · intro hg hm hr
    rw [hmapl]
    exact hg.product (hm.product hr)
  · have := congrArg List.length hmapi
    simpa [List.length_product] using this
  · intro ht hb
    rw [hmapi]
    exact ht.product hb

def lboSweepExCells : List LBOCell :=
  [⟨1, 3, 4, 0, -1⟩, ⟨1, 3, 5, 0, -1⟩, ⟨1, 3, 6, 0, -1⟩,
   ⟨2, 3, 4, 0, -1⟩, ⟨2, 3, 5, 0, -1⟩, ⟨2, 3, 6, 0, -1⟩]

def ipoSweepExCells : List IPOCell :=
  [⟨1 / 10, 0, 6, 2, 2, 2, 3 / 10⟩, ⟨1 / 10, 1, 6, 0, 2, 4, 3 / 10⟩,
   ⟨1 / 10, 2, 6, -2, 2, 6, 3 / 10⟩, ⟨1 / 5, 0, 6, 2, 2, 2, 3 / 5⟩,
   ⟨1 / 5, 1, 6, 0, 2, 4, 3 / 5⟩, ⟨1 / 5, 2, 6, -2, 2, 6, 3 / 5⟩]

/-- Witness for `sweep_completeness`: an LBO sweep over ranges of sizes
`2 × 1 × 3` and an IPO sweep over ranges of sizes `2 × 3`, each with six
cells. -/
theorem sweep_completeness_witness :
    lboSweepExCells.length
        = [(1 : ℚ), 2].length * ([(3 : ℚ)].length * [(4 : ℚ), 5, 6].length)
    ∧ lboSweepExCells.map lboCellParams
        = [(1 : ℚ), 2] ×ˢ ([(3 : ℚ)] ×ˢ [(4 : ℚ), 5, 6])
    ∧ ([(1 : ℚ), 2].Nodup → [(3 : ℚ)].Nodup → [(4 : ℚ), 5, 6].Nodup →
        (lboSweepExCells.map lboCellParams).Nodup)
    ∧ ipoSweepExCells.length = [(1 : ℚ) / 10, 1 / 5].length * [(0 : ℚ), 1, 2].length
    ∧ ipoSweepExCells.map ipoCellParams = [(1 : ℚ) / 10, 1 / 5] ×ˢ [(0 : ℚ), 1, 2]
    ∧ ([(1 : ℚ) / 10, 1 / 5].Nodup → [(0 : ℚ), 1, 2].Nodup →
        (ipoSweepExCells.map ipoCellParams).Nodup) :=
  sweep_completeness (fun _ => 0) 10 0 0 0 0 (1 / 2) (3 / 10) (1 / 10)
    [1, 2] [3] [4, 5, 6] lboSweepExCells
    (by
      simp [perform_lbo_sensitivity_analysis, lboCell, lboSweepYearsFrom,
        lboFinalDebt, collectCells, lboSweepExCells]
      norm_num
      simp [collectCells])
    0 1 none none 0 4 2 [1 / 10, 1 / 5] [0, 1, 2] ipoSweepExCells
    (by
      simp [perform_ipo_sensitivity_analysis, ipoCellCalc, ipoSweepSectorPe,
        ipoBlendEnterpriseValue, collectCells, ipoSweepExCells]
      norm_num
      simp [collectCells])

/-! ## Target selector (agents/valuation_agent.py, select_best_target)

One candidate of `companies_data`: the scalars the loop body reads.  The
`.get(..., default)` fallbacks of the source are the values stored here
(`ebitda_margin`/`revenue_growth`/`total_debt` default `0`, `total_assets`
default `1`).  A Python dict preserves insertion order, so `companies_data`
is modelled as an association list in iteration order. -/

structure Candidate where
  ebitda_margin : ℚ
  revenue_growth : ℚ
  total_debt : ℚ
  total_assets : ℚ
deriving DecidableEq

/-- `score = ebitda_margin * 0.4 + revenue_growth * 0.4
+ (1 - total_debt / total_assets) * 0.2`. -/
def score (c : Candidate) : ℚ :=
  c.ebitda_margin * (2 / 5) + c.revenue_growth * (2 / 5)
    + (1 - c.total_debt / c.total_assets) * (1 / 5)

/-- The selection loop: `best_score = -inf`, `best_target = None`, replace
on strict `score > best_score`.  The accumulator `none` plays the role of
`-inf` (any score beats it). -/
def selectAux : List (String × Candidate) → Option (String × ℚ) → Option (String × ℚ)
  | [], acc => acc
  | (sym, c) :: rest, acc =>
    match acc with
    | none => selectAux rest (some (sym, score c))
    | some (bsym, bs) =>
      if bs < score c then selectAux rest (some (sym, score c))
      else selectAux rest (some (bsym, bs))

def select_best_target (l : List (String × Candidate)) : Option String :=
  (selectAux l none).map Prod.fst

/-- Reference recursion: the earliest entry attaining the maximal score
(head wins ties against the rest). -/
def firstMax : List (String × Candidate) → Option (String × ℚ)
  | [] => none
  | p :: rest =>
    match firstMax rest with
    | none => some (p.1, score p.2)
    | some m => if m.2 ≤ score p.2 then some (p.1, score p.2) else some m

theorem firstMax_cons_ne_none (p : String × Candidate)
    (rest : List (String × Candidate)) : firstMax (p :: rest) ≠ none := by
  cases hfm : firstMax rest with
  | none => simp [firstMax, hfm]
  | some m =>
    simp only [firstMax, hfm]
    split <;> simp

theorem selectAux_some (l : List (String × Candidate)) :
    ∀ b : String × ℚ,
      selectAux l (some b)
        = some ((firstMax l).elim b fun m => if b.2 < m.2 then m else b) := by
  induction l with
  | nil => intro b; simp [selectAux, firstMax]
  | cons p rest ih =>
    intro b
    obtain ⟨sym, c⟩ := p
    cases hfm : firstMax rest with
    | none =>
      by_cases hb : b.2 < score c <;>
        simp [selectAux, hb, ih, hfm, firstMax, Option.elim]
    | some m =>
      by_cases hm : m.2 ≤ score c
      · by_cases hb : b.2 < score c
        · simp [selectAux, hb, ih, hfm, firstMax, Option.elim, hm, not_lt.2 hm]
        · have hbm : ¬b.2 < m.2 := fun hlt => hb (lt_of_lt_of_le hlt hm)
          simp [selectAux, hb, ih, hfm, firstMax, Option.elim, hm, hbm]
      · by_cases hb : b.2 < score c
        · simp [selectAux, hb, ih, hfm, firstMax, Option.elim, hm,
            lt_of_not_le hm, lt_trans hb (lt_of_not_le hm)]
        · simp [selectAux, hb, ih, hfm, firstMax, Option.elim, hm]

theorem select_best_target_eq_firstMax (l : List (String × Candidate)) :
    select_best_target l = (firstMax l).map Prod.fst := by
  cases l with
  | nil => rfl
  | cons p rest =>
    obtain ⟨sym, c⟩ := p
    simp only [select_best_target, selectAux, selectAux_some]
    cases hfm : firstMax rest with
    | none => simp [firstMax, hfm, Option.elim]
    | some m =>
      by_cases hm : m.2 ≤ score c
      · simp [firstMax, hfm, Option.elim, hm, not_lt.2 hm]
      · simp [firstMax, hfm, Option.elim, hm, lt_of_not_le hm]

def candDefault : String × Candidate := ("", ⟨0, 0, 0, 1⟩)

/-- The candidate at iteration position `i` (out-of-range reads give a
dummy, never used under the index bounds of the theorems). -/
def candAt (l : List (String × Candidate)) (i : ℕ) : String × Candidate :=
  l.getD i candDefault

theorem firstMax_spec :
    ∀ (l : List (String × Candidate)) (m : String × ℚ), firstMax l = some m →
      ∃ i, i < l.length
        ∧ m.1 = (candAt l i).1 ∧ m.2 = score (candAt l i).2
        ∧ (∀ q ∈ l, score q.2 ≤ m.2)
        ∧ ∀ j, j < i → score (candAt l j).2 < m.2 := by
  intro l
  induction l with
  | nil => intro m h; simp [firstMax] at h
  | cons p rest ih =>
    intro m h
    cases hfm : firstMax rest with
    | none =>
      simp only [firstMax, hfm, Option.some.injEq] at h
      subst h
      have hrest : rest = [] := by
        cases rest with
        | nil => rfl
        | cons q t => exact absurd hfm (firstMax_cons_ne_none q t)
      subst hrest
      exact ⟨0, by simp, rfl, rfl, by simp [candAt], fun j hj => absurd hj (Nat.not_lt_zero j)⟩
    | some m' =>
      simp only [firstMax, hfm] at h
      obtain ⟨i', hi', h1, h2, h3, h4⟩ := ih m' hfm
      by_cases hm : m'.2 ≤ score p.2
      · rw [if_pos hm] at h
        simp only [Option.some.injEq] at h
        subst h
        refine ⟨0, by simp, rfl, rfl, ?_, fun j hj => absurd hj (Nat.not_lt_zero j)⟩
        intro q hq
        rcases List.mem_cons.1 hq with hq | hq
        · subst hq; exact le_refl _
        · exact le_trans (h3 q hq) hm
      · rw [if_neg hm] at h
        simp only [Option.some.injEq] at h
        subst h
        refine ⟨i' + 1, by simpa using hi', by simpa [candAt] using h1,
          by simpa [candAt] using h2, ?_, ?_⟩
        · intro q hq
          rcases List.mem_cons.1 hq with hq | hq
          · subst hq; exact le_of_lt (lt_of_not_le hm)
          · exact h3 q hq
        · intro j hj
          cases j with
          | zero => simpa [candAt] using lt_of_not_le hm
          | succ j' =>
            have := h4 j' (Nat.lt_of_succ_lt_succ hj)
            simpa [candAt] using this

/-! ### C6: tie-break is iteration order, not symbol order -/

def tieCand : Candidate := ⟨1 / 10, 1 / 10, 1, 2⟩

/-- **C6 (counterexample).** Two candidates with identical scores, inserted
as `B` then `A`: the strict `score > best_score` comparison keeps the
first-iterated candidate, so `select_best_target` returns `"B"`, not the
lexicographically smaller `"A"` the claim requires. -/
theorem select_best_target_tie_not_lexicographic :
    select_best_target [("B", tieCand), ("A", tieCand)] = some "B"
    ∧ ("A" : String) < "B"
    ∧ select_best_target [("B", tieCand), ("A", tieCand)] ≠ some "A" := by
  refine ⟨?_, by rw [String.lt_iff_toList_lt]; decide, ?_⟩
  · simp [select_best_target, selectAux]
  · simp [select_best_target, selectAux]

/-- **C6 (amended).** `select_best_target` computes
`score = 0.4 * ebitda_margin + 0.4 * revenue_growth
+ 0.2 * (1 - total_debt / total_assets)` per candidate and returns the
symbol of the highest-scoring one; on ties it keeps the candidate iterated
first (dict insertion order), not the lexicographically smaller symbol.
Formally: on a non-empty candidate list the selected entry attains the
maximum score and every earlier entry scores strictly less — which also
makes the selection deterministic for a fixed input order. -/
theorem select_best_target_first_max (l : List (String × Candidate))
    (h : l ≠ []) :
    ∃ i, i < l.length
      ∧ select_best_target l = some (candAt l i).1
      ∧ (∀ q ∈ l, score q.2 ≤ score (candAt l i).2)
      ∧ ∀ j, j < i → score (candAt l j).2 < score (candAt l i).2 := by
  rcases hfm : firstMax l with _ | m
  · cases l with
    | nil => exact absurd rfl h
    | cons p rest => exact absurd hfm (firstMax_cons_ne_none p rest)
  · obtain ⟨i, hi, h1, h2, h3, h4⟩ := firstMax_spec l m hfm
    refine ⟨i, hi, ?_, ?_, ?_⟩
    · rw [select_best_target_eq_firstMax, hfm, Option.map_some', h1]
    · intro q hq
      rw [← h2]
      exact h3 q hq
    · intro j hj
      rw [← h2]
      exact h4 j hj

/-- Witness for `select_best_target_first_max`: `B` (score `1/5`) then `A`
(score `1`); the winner is `A` at position 1, and position 0 scores
strictly less. -/
theorem select_best_target_first_max_witness :
    ∃ i, i < [("B", (⟨0, 0, 0, 1⟩ : Candidate)), ("A", ⟨1, 1, 0, 1⟩)].length
      ∧ select_best_target [("B", (⟨0, 0, 0, 1⟩ : Candidate)), ("A", ⟨1, 1, 0, 1⟩)]
          = some (candAt [("B", (⟨0, 0, 0, 1⟩ : Candidate)), ("A", ⟨1, 1, 0, 1⟩)] i).1
      ∧ (∀ q ∈ [("B", (⟨0, 0, 0, 1⟩ : Candidate)), ("A", ⟨1, 1, 0, 1⟩)],
          score q.2 ≤ score (candAt
            [("B", (⟨0, 0, 0, 1⟩ : Candidate)), ("A", ⟨1, 1, 0, 1⟩)] i).2)
      ∧ ∀ j, j < i →
          score (candAt [("B", (⟨0, 0, 0, 1⟩ : Candidate)), ("A", ⟨1, 1, 0, 1⟩)] j).2
            < score (candAt
              [("B", (⟨0, 0, 0, 1⟩ : Candidate)), ("A", ⟨1, 1, 0, 1⟩)] i).2 :=
  select_best_target_first_max
    [("B", (⟨0, 0, 0, 1⟩ : Candidate)), ("A", ⟨1, 1, 0, 1⟩)] (by simp)

/-! ## IPO valuator (finmodels_tools.py, calculate_ipo_valuation)

The data-fetching layer is external; the embedding takes the scalars the
calculation extracts: `revenue`/`ebitda` (already defaulted with `or 0`),
`pe_ratio` and the sector lookup (each possibly `None`), `revenue_growth`,
`debt` and `market_cap`. -/

/-- `pe_ratio if pe_ratio and pe_ratio != 0 else 15`. -/
def ipoSectorPeFallback (pe_ratio : Option ℚ) : ℚ :=
  match pe_ratio with
  | some p => if p = 0 then 15 else p
  | none => 15

/-- `if sector_pe is None or sector_pe == 0: sector_pe = <fallback>`
(the `calculate_ipo_valuation` variant, which also replaces a
present-but-zero sector P/E). -/
def ipoSectorPe (sector_pe pe_ratio : Option ℚ) : ℚ :=
  match sector_pe with
  | some s => if s = 0 then ipoSectorPeFallback pe_ratio else s
  | none => ipoSectorPeFallback pe_ratio

/-- The `"N/A"` strings for uncomputable multiples are modelled as `none`. -/
structure IPOResult where
  enterprise_value : ℚ
  equity_value : ℚ
  ev_revenue_multiple : Option ℚ
  ev_ebitda_multiple : Option ℚ
  shares_outstanding : ℚ
  float_shares : ℚ
  price_low : ℚ
  price_base : ℚ
  price_high : ℚ
deriving DecidableEq

/-- `(revenue * sector_pe) if revenue and sector_pe else 0`. -/
def ipoEvRevenue (revenue spe : ℚ) : ℚ :=
  if revenue ≠ 0 ∧ spe ≠ 0 then revenue * spe else 0

/-- `(ebitda * 10) if ebitda else 0`. -/
def ipoEvEbitda (ebitda : ℚ) : ℚ :=
  if ebitda ≠ 0 then ebitda * 10 else 0

/-- `ev_revenue / revenue if revenue and revenue != 0 else "N/A"`. -/
def ipoEvRevenueMultiple (ev_revenue revenue : ℚ) : Option ℚ :=
  if revenue ≠ 0 then some (ev_revenue / revenue) else none

/-- `ev_ebitda / ebitda if ebitda and ebitda != 0 else "N/A"`. -/
def ipoEvEbitdaMultiple (ev_ebitda ebitda : ℚ) : Option ℚ :=
  if ebitda ≠ 0 then some (ev_ebitda / ebitda) else none

/-- `calculate_ipo_valuation`: `none` models the `{}` returned when the body
raises — the `ZeroDivisionError` computing `shares_outstanding` when
`market_cap == 0`, or computing `base_price` when `shares_outstanding == 0`. -/
def calculate_ipo_valuation (revenue ebitda : ℚ) (pe_ratio sector_pe : Option ℚ)
    (revenue_growth debt market_cap : ℚ) (target_float price_range_buffer : ℚ) :
    Option IPOResult :=
  let spe := ipoSectorPe sector_pe pe_ratio
  let ev_revenue := ipoEvRevenue revenue spe
  let ev_ebitda := ipoEvEbitda ebitda
  let enterprise_value := ipoBlendEnterpriseValue ev_revenue ev_ebitda revenue_growth
  let equity_value := enterprise_value - debt
  if market_cap = 0 then none else
  let shares_outstanding := equity_value / market_cap
  let float_shares := shares_outstanding * target_float
  if shares_outstanding = 0 then none else
  let base_price := equity_value / shares_outstanding
  some { enterprise_value := enterprise_value
         equity_value := equity_value
         ev_revenue_multiple := ipoEvRevenueMultiple ev_revenue revenue
         ev_ebitda_multiple := ipoEvEbitdaMultiple ev_ebitda ebitda
         shares_outstanding := shares_outstanding
         float_shares := float_shares
         price_low := base_price * (1 - price_range_buffer)
         price_base := base_price
         price_high := base_price * (1 + price_range_buffer) }

/-- Field extraction for a successful IPO valuation: the guards that held
and the defining formulas of the offering figures. -/
theorem calculate_ipo_valuation_fields (revenue ebitda : ℚ)
    (pe_ratio sector_pe : Option ℚ) (revenue_growth debt market_cap : ℚ)
    (target_float price_range_buffer : ℚ) (r : IPOResult)
    (h : calculate_ipo_valuation revenue ebitda pe_ratio sector_pe revenue_growth
      debt market_cap target_float price_range_buffer = some r) :
    market_cap ≠ 0
    ∧ r.shares_outstanding = r.equity_value / market_cap
    ∧ r.shares_outstanding ≠ 0
    ∧ r.price_base = r.equity_value / r.shares_outstanding
    ∧ r.price_low = r.price_base * (1 - price_range_buffer)
    ∧ r.price_high = r.price_base * (1 + price_range_buffer) := by
  simp only [calculate_ipo_valuation] at h
  split at h
  · exact absurd h (by simp)
  rename_i hmc
  split at h
  · exact absurd h (by simp)
  rename_i hsh
  simp only [Option.some.injEq] at h
  subst h
  exact ⟨hmc, rfl, hsh, rfl, rfl, rfl⟩

/-- Cancellation at the heart of C9/C10: for a successful run the base
price is exactly `market_cap`. -/
theorem ipo_base_price_eq_market_cap (revenue ebitda : ℚ)
    (pe_ratio sector_pe : Option ℚ) (revenue_growth debt market_cap : ℚ)
    (target_float price_range_buffer : ℚ) (r : IPOResult)
    (h : calculate_ipo_valuation revenue ebitda pe_ratio sector_pe revenue_growth
      debt market_cap target_float price_range_buffer = some r) :
    r.price_base = market_cap := by
  obtain ⟨hmc, hs, hsne, hb, _, _⟩ :=
    calculate_ipo_valuation_fields revenue ebitda pe_ratio sector_pe
      revenue_growth debt market_cap target_float price_range_buffer r h
  have hq : r.equity_value ≠ 0 := by
    intro h0
    exact hsne (by rw [hs, h0, zero_div])
  rw [hb, hs, div_div_eq_mul_div, mul_comm, mul_div_assoc, div_self hq, mul_one]

/-! ### C9: price ordering -/

/-- **C9 (counterexample).** A successful run with a negative `market_cap`
(`revenue = 0`, `ebitda = 1` so the enterprise value is `10`; `debt = 20`
gives equity `-10`; `market_cap = -5`, `buffer = 3/20 ∈ [0,1]`): the base
price is `-5` but the low price is `-17/4 > -5`, so
`price_low <= price_base` fails. -/
theorem ipo_price_ordering_violated :
    (calculate_ipo_valuation 0 1 none none 0 20 (-5) (1 / 5) (3 / 20)).map
        IPOResult.price_low = some (-17 / 4)
    ∧ (calculate_ipo_valuation 0 1 none none 0 20 (-5) (1 / 5) (3 / 20)).map
        IPOResult.price_base = some (-5)
    ∧ ¬((-17 / 4 : ℚ) ≤ -5)
    ∧ (0 : ℚ) ≤ 3 / 20 ∧ (3 / 20 : ℚ) ≤ 1 := by
  refine ⟨?_, ?_, by norm_num, by norm_num, by norm_num⟩ <;>
    norm_num [calculate_ipo_valuation, ipoSectorPe, ipoSectorPeFallback,
      ipoEvRevenue, ipoEvEbitda, ipoEvRevenueMultiple, ipoEvEbitdaMultiple,
      ipoBlendEnterpriseValue]

/-- **C9 (amended).** For every successful IPO valuation with
`price_range_buffer ∈ [0, 1]` *and a non-negative `market_cap`*, the
offering prices satisfy `price_low <= price_base <= price_high`.  (The
base price always equals `market_cap`, so a negative market cap — and
nothing else — flips the ordering.) -/
theorem ipo_price_ordering (revenue ebitda : ℚ) (pe_ratio sector_pe : Option ℚ)
    (revenue_growth debt market_cap : ℚ) (target_float price_range_buffer : ℚ)
    (r : IPOResult)
    (hb0 : 0 ≤ price_range_buffer) (hb1 : price_range_buffer ≤ 1)
    (hmc0 : 0 ≤ market_cap)
    (h : calculate_ipo_valuation revenue ebitda pe_ratio sector_pe revenue_growth
      debt market_cap target_float price_range_buffer = some r) :
    r.price_low ≤ r.price_base ∧ r.price_base ≤ r.price_high := by
  obtain ⟨hmc, hs, hsne, hb, hlo, hhi⟩ :=
    calculate_ipo_valuation_fields revenue ebitda pe_ratio sector_pe
      revenue_growth debt market_cap target_float price_range_buffer r h
  have hbase0 : 0 ≤ r.price_base := by
    rw [ipo_base_price_eq_market_cap revenue ebitda pe_ratio sector_pe
      revenue_growth debt market_cap target_float price_range_buffer r h]
    exact hmc0
  have hmul : 0 ≤ r.price_base * price_range_buffer := mul_nonneg hbase0 hb0
  constructor
  · rw [hlo]
    nlinarith
  · rw [hhi]
    nlinarith

def ipoExResult : IPOResult := ⟨10, 6, none, some 10, 3, 3 / 5, 17 / 10, 2, 23 / 10⟩

/-- Witness for `ipo_price_ordering`: `ebitda = 1`, `debt = 4`,
`market_cap = 2`, `buffer = 3/20`. -/
theorem ipo_price_ordering_witness :
    ipoExResult.price_low ≤ ipoExResult.price_base
    ∧ ipoExResult.price_base ≤ ipoExResult.price_high :=
  ipo_price_ordering 0 1 none none 0 4 2 (1 / 5) (3 / 20) ipoExResult
    (by norm_num) (by norm_num) (by norm_num)
    (by
      norm_num [calculate_ipo_valuation, ipoSectorPe, ipoSectorPeFallback,
        ipoEvRevenue, ipoEvEbitda, ipoEvRevenueMultiple, ipoEvEbitdaMultiple,
        ipoBlendEnterpriseValue, ipoExResult])

/-! ### C10: the base price cancels to the market cap -/

/-- **C10.** For every successful IPO valuation with non-zero equity value
and non-zero market cap, `shares_outstanding = equity_value / market_cap`
and `price_base = equity_value / shares_outstanding`, which cancel
algebraically: the returned base offering price equals `market_cap` exactly,
independent of the computed enterprise value. -/
theorem ipo_base_price_is_market_cap (revenue ebitda : ℚ)
    (pe_ratio sector_pe : Option ℚ) (revenue_growth debt market_cap : ℚ)
    (target_float price_range_buffer : ℚ) (r : IPOResult)
    (hq : r.equity_value ≠ 0) (hmcne : market_cap ≠ 0)
    (h : calculate_ipo_valuation revenue ebitda pe_ratio sector_pe revenue_growth
      debt market_cap target_float price_range_buffer = some r) :
    r.shares_outstanding = r.equity_value / market_cap
    ∧ r.price_base = r.equity_value / r.shares_outstanding
    ∧ r.price_base = market_cap := by
  obtain ⟨_, hs, _, hb, _, _⟩ :=
    calculate_ipo_valuation_fields revenue ebitda pe_ratio sector_pe
      revenue_growth debt market_cap target_float price_range_buffer r h
  exact ⟨hs, hb,
    ipo_base_price_eq_market_cap revenue ebitda pe_ratio sector_pe
      revenue_growth debt market_cap target_float price_range_buffer r h⟩

/-- Witness for `ipo_base_price_is_market_cap` at the same successful run:
the base price equals the market cap `2`. -/
theorem ipo_base_price_is_market_cap_witness :
    ipoExResult.shares_outstanding = ipoExResult.equity_value / 2
    ∧ ipoExResult.price_base = ipoExResult.equity_value / ipoExResult.shares_outstanding
    ∧ ipoExResult.price_base = 2 :=
  ipo_base_price_is_market_cap 0 1 none none 0 4 2 (1 / 5) (3 / 20) ipoExResult
    (by norm_num [ipoExResult]) (by norm_num)
    (by
      norm_num [calculate_ipo_valuation, ipoSectorPe, ipoSectorPeFallback,
        ipoEvRevenue, ipoEvEbitda, ipoEvRevenueMultiple, ipoEvEbitdaMultiple,
        ipoBlendEnterpriseValue, ipoExResult])

end MnA
